import Mathlib

/-!
Verification development for the KGTK value classifier/validator
(`kgtk/join/kgtkvalue.py`).  The Python module is shallowly embedded:
cell values are `List Char`, the compiled regular expressions are
transcribed into a small regular-expression datatype whose anchored
full-match semantics is computed with Brzozowski derivatives, and the
conditional-group date patterns (which the datatype cannot express) are
transcribed as deterministic recursive scanners.  All definitions follow
the source text, including its defects (the `(":_?` tokens and the
mandatory long-integer suffix inside the binary/octal/hex integer
patterns, the `[0-7a-fA-F]` hex digit class, the mandatory month/day and
minute/second groups of the date patterns, and the `\[-+]` time-zone
token of the date patterns).
-/

namespace Kgtk

/-! ## Regular expressions with Brzozowski-derivative matching

`RE.rmatch r cs = true` iff `cs` is in the language of `r`; this models
`re.compile("^" + pat + "$").match(s) is not None` for the anchored
patterns of the source.
-/

inductive RE where
  | emp : RE
  | eps : RE
  | cls : (Char → Bool) → RE
  | cat : RE → RE → RE
  | alt : RE → RE → RE
  | star : RE → RE

def RE.nullable : RE → Bool
  | .emp => false
  | .eps => true
  | .cls _ => false
  | .cat a b => a.nullable && b.nullable
  | .alt a b => a.nullable || b.nullable
  | .star _ => true

def RE.deriv : RE → Char → RE
  | .emp, _ => .emp
  | .eps, _ => .emp
  | .cls p, c => if p c then .eps else .emp
  | .cat a b, c =>
      if a.nullable then .alt (.cat (a.deriv c) b) (b.deriv c)
      else .cat (a.deriv c) b
  | .alt a b, c => .alt (a.deriv c) (b.deriv c)
  | .star a, c => .cat (a.deriv c) (.star a)

def RE.rmatch (r : RE) (cs : List Char) : Bool :=
  (cs.foldl RE.deriv r).nullable

def RE.chr (c : Char) : RE := .cls (fun d => d == c)

def RE.opt (r : RE) : RE := .alt r .eps

def RE.plus (r : RE) : RE := .cat r (.star r)

/-- Concatenation of single-character literals, for multi-letter tokens
such as the SI units. -/
def RE.str : List Char → RE
  | [] => .eps
  | c :: cs => .cat (RE.chr c) (RE.str cs)

/-! ## The number/quantity lexical grammar (source lines 193-278)

Each `*_pat` below transcribes the Python pattern string of the same
name.  The binary/octal/hexadecimal integer patterns reproduce the
source text literally: the group `(":_?<digit>)` begins with a literal
double quote and a literal colon (where `(?:_?<digit>)` was evidently
intended), and the long-integer suffix inside them is not optional.
-/

def long_suffix_pat : RE := .cls (fun c => c == 'l' || c == 'L')

def plus_or_minus_pat : RE := .cls (fun c => c == '-' || c == '+')

def digit_pat : RE := .cls Char.isDigit

/-- `{digit}(?:_?{digit})*{long_suffix}?` -/
def decinteger_pat : RE :=
  .cat digit_pat (.cat (.star (.cat (RE.opt (RE.chr '_')) digit_pat)) (RE.opt long_suffix_pat))

def bindigit_pat : RE := .cls (fun c => c == '0' || c == '1')

/-- `0[bB](":_?{bindigit})+{long_suffix}` — transcribed with the literal
`"` and `:` of the source and with the mandatory suffix. -/
def bininteger_pat : RE :=
  .cat (RE.chr '0') (.cat (.cls (fun c => c == 'b' || c == 'B'))
    (.cat (RE.plus (.cat (RE.chr '"') (.cat (RE.chr ':')
      (.cat (RE.opt (RE.chr '_')) bindigit_pat))))
      long_suffix_pat))

def octdigit_pat : RE := .cls (fun c => '0' ≤ c && c ≤ '7')

/-- `0[oO](":_?{octdigit})+{long_suffix}` -/
def octinteger_pat : RE :=
  .cat (RE.chr '0') (.cat (.cls (fun c => c == 'o' || c == 'O'))
    (.cat (RE.plus (.cat (RE.chr '"') (.cat (RE.chr ':')
      (.cat (RE.opt (RE.chr '_')) octdigit_pat))))
      long_suffix_pat))

/-- `[0-7a-fA-F]`, exactly as in the source (digits 8 and 9 are absent). -/
def hexdigit_pat : RE :=
  .cls (fun c => ('0' ≤ c && c ≤ '7') || ('a' ≤ c && c ≤ 'f') || ('A' ≤ c && c ≤ 'F'))

/-- `0[xX](":_?{hexdigit})+{long_suffix}` -/
def hexinteger_pat : RE :=
  .cat (RE.chr '0') (.cat (.cls (fun c => c == 'x' || c == 'X'))
    (.cat (RE.plus (.cat (RE.chr '"') (.cat (RE.chr ':')
      (.cat (RE.opt (RE.chr '_')) hexdigit_pat))))
      long_suffix_pat))

def integer_pat : RE :=
  .alt decinteger_pat (.alt bininteger_pat (.alt octinteger_pat hexinteger_pat))

/-- `{digit}(?:_?{digit})*` -/
def digitpart_pat : RE :=
  .cat digit_pat (.star (.cat (RE.opt (RE.chr '_')) digit_pat))

/-- `\.{digitpart}` -/
def fraction_pat : RE := .cat (RE.chr '.') digitpart_pat

/-- `(?:{digitpart}?{fraction})|(?:{digitpart}\.)` -/
def pointfloat_pat : RE :=
  .alt (.cat (RE.opt digitpart_pat) fraction_pat) (.cat digitpart_pat (RE.chr '.'))

/-- `[eE]{plus_or_minus}?{digitpart}` -/
def exponent_pat : RE :=
  .cat (.cls (fun c => c == 'e' || c == 'E')) (.cat (RE.opt plus_or_minus_pat) digitpart_pat)

/-- `(?:{digitpart}|{pointfloat}){exponent}` -/
def exponentfloat_pat : RE :=
  .cat (.alt digitpart_pat pointfloat_pat) exponent_pat

def floatnumber_pat : RE := .alt pointfloat_pat exponentfloat_pat

/-- `(?:{floatnumber}|{digitpart})[jJ]` -/
def imagnumber_pat : RE :=
  .cat (.alt floatnumber_pat digitpart_pat) (.cls (fun c => c == 'j' || c == 'J'))

/-- `{plus_or_minus}?(?:{integer}|{floatnumber}|{imagnumber})` -/
def numeric_pat : RE :=
  .cat (RE.opt plus_or_minus_pat) (.alt integer_pat (.alt floatnumber_pat imagnumber_pat))

/-- `\[{numeric},{numeric}\]` -/
def tolerance_pat : RE :=
  .cat (RE.chr '[') (.cat numeric_pat (.cat (RE.chr ',') (.cat numeric_pat (RE.chr ']'))))

/-- `m|kg|s|C|K|mol|cd|F|M|A|N|ohms|V|J|Hz|lx|H|Wb|V\W|Pa`; `\W` is the
non-word class (here: not an ASCII alphanumeric and not an underscore). -/
def si_unit_pat : RE :=
  .alt (RE.chr 'm') (.alt (RE.str ['k', 'g']) (.alt (RE.chr 's')
  (.alt (RE.chr 'C') (.alt (RE.chr 'K') (.alt (RE.str ['m', 'o', 'l'])
  (.alt (RE.str ['c', 'd']) (.alt (RE.chr 'F') (.alt (RE.chr 'M')
  (.alt (RE.chr 'A') (.alt (RE.chr 'N') (.alt (RE.str ['o', 'h', 'm', 's'])
  (.alt (RE.chr 'V') (.alt (RE.chr 'J') (.alt (RE.str ['H', 'z'])
  (.alt (RE.str ['l', 'x']) (.alt (RE.chr 'H') (.alt (RE.str ['W', 'b'])
  (.alt (.cat (RE.chr 'V') (.cls (fun c => !(c.isAlphanum || c == '_'))))
  (RE.str ['P', 'a'])))))))))))))))))))

/-- `-1|2|3` -/
def si_power_pat : RE :=
  .alt (RE.str ['-', '1']) (.alt (RE.chr '2') (RE.chr '3'))

def si_combiner_pat : RE := .cls (fun c => c == '.' || c == '/')

/-- `{si_unit}{si_power}?(?:{si_combiner}{si_unit}{si_power}?)*` -/
def si_pat : RE :=
  .cat si_unit_pat (.cat (RE.opt si_power_pat)
    (.star (.cat si_combiner_pat (.cat si_unit_pat (RE.opt si_power_pat)))))

def nonzero_digit_pat : RE := .cls (fun c => '1' ≤ c && c ≤ '9')

/-- `Q{nonzero_digit}{digit}*` -/
def wikidata_node_pat : RE :=
  .cat (RE.chr 'Q') (.cat nonzero_digit_pat (.star digit_pat))

def units_pat : RE := .alt si_pat wikidata_node_pat

/-- `{numeric}{tolerance}?{units}?` -/
def number_or_quantity_pat : RE :=
  .cat numeric_pat (.cat (RE.opt tolerance_pat) (RE.opt units_pat))

/-- `{numeric}(?:(?:{tolerance}{units}?)|{units})` -/
def quantity_pat : RE :=
  .cat numeric_pat (.alt (.cat tolerance_pat (RE.opt units_pat)) units_pat)

/-- `number_or_quantity_re.match` (full anchored match). -/
def number_or_quantity_re (cs : List Char) : Bool := RE.rmatch number_or_quantity_pat cs

/-- `number_re.match`: the anchored `numeric_pat`. -/
def number_re (cs : List Char) : Bool := RE.rmatch numeric_pat cs

/-- `quantity_re.match`: the anchored `quantity_pat`. -/
def quantity_re (cs : List Char) : Bool := RE.rmatch quantity_pat cs

example : number_re "1".toList = true := by decide
example : number_re "10.4e10".toList = true := by decide
example : number_re "0b101".toList = false := by decide
example : number_re "0o277".toList = false := by decide
example : number_re "0x24F".toList = false := by decide
example : number_re "1J".toList = true := by decide
example : quantity_re "1J".toList = true := by decide
example : quantity_re "1".toList = false := by decide
example : quantity_re "-12.5[1,2]m".toList = true := by decide

/-! ## Quoted strings (source lines 362-363 and 431-432)

`quotedLax q` is the language of `^q.*q$` and `quotedStrict q` the
language of an opening `q`, a body of tokens that are either a single
character other than `q` and backslash or a backslash followed by any
character, and a closing `q`.  (The period of the Python patterns also
excludes the newline character; that refinement is not modelled, and no
theorem below depends on it.)
-/

/-- `^q.*q$`: at least two characters, the first and last equal to `q`. -/
def quotedLax (q : Char) : List Char → Bool
  | [] => false
  | c :: rest =>
    c == q &&
    (match rest.getLast? with
     | some d => d == q
     | none => false)

/-- The body-and-closing-quote part of `^q(?:[^q\\]|\\.)*q$`: a backslash
always consumes the following character; the first unescaped `q` must be
the final character. -/
def quotedBody (q : Char) : List Char → Bool
  | [] => false
  | [c] => c == q
  | '\\' :: _ :: rest => quotedBody q rest
  | c :: rest => if c == q then false else quotedBody q rest

def quotedStrict (q : Char) : List Char → Bool
  | c :: rest => c == q && quotedBody q rest
  | [] => false

example : quotedStrict '"' "\"ab\\\"c\"".toList = true := by decide
example : quotedStrict '"' "\"ab\"c\"".toList = false := by decide
example : quotedLax '"' "\"ab\"c\"".toList = true := by decide
example : quotedStrict '\'' "'x'".toList = true := by decide

/-! ## Splitting a list at the first occurrence of a separator -/

/-- Split at the first occurrence of `sep`, returning the (separator-free)
prefix and the unexamined suffix. -/
def splitFirst (sep : Char) : List Char → Option (List Char × List Char)
  | [] => none
  | c :: rest =>
    if c == sep then some ([], rest)
    else match splitFirst sep rest with
         | some (l, r) => some (c :: l, r)
         | none => none

/-- Split at the last occurrence of `sep`. -/
def splitLast (sep : Char) (cs : List Char) : Option (List Char × List Char) :=
  match splitFirst sep cs.reverse with
  | some (a, b) => some (b.reverse, a.reverse)
  | none => none

example : splitLast '@' "'a@b'@en".toList = some ("'a@b'".toList, "en".toList) := by decide

/-! ## Language-qualified strings (source lines 418-519)

The anchored patterns
`^(?P<string>'.*')@(?P<lang>[a-zA-Z]{2,3}(?:-[a-zA-Z]+)?)$` (lax) and
`^(?P<string>'(?:[^'\\]|\\.)*')@(?P<lang>[a-zA-Z]{2,3}(?:-[a-zA-Z]+)?)$`
(strict) are decomposed at the last `@` of the item: the language group
cannot contain `@`, so a full match exists exactly when the prefix
before the last `@` matches the string group and the suffix matches the
language group.

The `pycountry`/`iso639` registry lookups are external libraries, not
code of this repository; they are modelled as an abstract structure of
three pure boolean oracles, exactly the three membership queries the
source makes (`alpha_2`, `alpha_3`, ISO 639-5 `part5`).
-/

structure LangOracles where
  alpha2 : List Char → Bool
  alpha3 : List Char → Bool
  part5 : List Char → Bool

/-- Oracles under which every registry lookup fails. -/
def oracleNone : LangOracles := ⟨fun _ => false, fun _ => false, fun _ => false⟩

def isAsciiLetter (c : Char) : Bool :=
  ('a' ≤ c && c ≤ 'z') || ('A' ≤ c && c ≤ 'Z')

/-- The `lang` group `[a-zA-Z]{2,3}(?:-[a-zA-Z]+)?`: a 2- or 3-letter
main code, optionally one hyphen and a nonempty letter sub-tag. -/
def langTagOk (cs : List Char) : Bool :=
  match splitFirst '-' cs with
  | none => (cs.length == 2 || cs.length == 3) && cs.all isAsciiLetter
  | some (main, sub) =>
    (main.length == 2 || main.length == 3) && main.all isAsciiLetter &&
    !sub.isEmpty && sub.all isAsciiLetter

/-- Source lines 18-20: the default additional language code list
`["mo"]`. -/
def DEFAULT_ADDITIONAL_LANGUAGE_CODES : List (List Char) := [['m', 'o']]

structure KgtkValueOptions where
  allow_month_or_day_zero : Bool
  allow_lax_strings : Bool
  allow_lax_lq_strings : Bool
  allow_additional_language_codes : Bool
  additional_language_codes : List (List Char)

def DEFAULT_KGTK_VALUE_OPTIONS : KgtkValueOptions :=
  ⟨false, false, false, false, DEFAULT_ADDITIONAL_LANGUAGE_CODES⟩

/-- The language-code validation cascade of
`is_valid_language_qualified_string` on the lowercased `lang` group
(source lines 465-519).  Within the hyphen branch the `part5` lookup is
attempted for every length of the split-off primary code, matching the
indentation of the source; the final allow-list membership test uses the
variable `lang` as the source leaves it — the split-off primary code
when the tag was hyphenated. -/
def langCascade (o : LangOracles) (opts : KgtkValueOptions) (lang : List Char) : Bool :=
  let first :=
    if lang.length == 2 then o.alpha2 lang
    else if lang.length == 3 then o.alpha3 lang || o.part5 lang
    else false
  if first then true
  else
    match splitFirst '-' lang with
    | some (l, _) =>
      let second :=
        (if l.length == 2 then o.alpha2 l
         else if l.length == 3 then o.alpha3 l
         else false) || o.part5 l
      if second then true
      else opts.allow_additional_language_codes && opts.additional_language_codes.contains l
    | none =>
      opts.allow_additional_language_codes && opts.additional_language_codes.contains lang

/-- The post-guard body of `is_valid_language_qualified_string`: regex
match (strict or lax according to the options), then the cascade on the
lowercased language group. -/
def itemIsValidLanguageQualifiedString (o : LangOracles) (opts : KgtkValueOptions)
    (item : List Char) : Bool :=
  match splitLast '@' item with
  | none => false
  | some (sp, lp) =>
    (if opts.allow_lax_lq_strings then quotedLax '\'' sp else quotedStrict '\'' sp) &&
    langTagOk lp &&
    langCascade o opts (lp.map Char.toLower)

example : itemIsValidLanguageQualifiedString
  ⟨fun l => l == ['e', 'n'], fun _ => false, fun _ => false⟩
  DEFAULT_KGTK_VALUE_OPTIONS "'hello'@en".toList = true := by decide
example : itemIsValidLanguageQualifiedString oracleNone
  DEFAULT_KGTK_VALUE_OPTIONS "'hello'@xx".toList = false := by decide

/-! ## Location coordinates (source lines 521-571)

The anchored pattern is
`^@(?P<lat>[-+]?(?:\d+(?:\.\d*)?)|(?:\.\d+))/(?P<lon>...)$` with the
same group for `lon`.  Note the grouping of the source: the optional
sign belongs only to the first alternative; the bare-fraction
alternative `\.\d+` admits no sign.  The coordinate groups cannot
contain `/`, so a full match splits the item at its unique `/`.
`float()` applied to a matched group always succeeds; its value is
modelled exactly as the decimal value of the digits (the bound checks
`-90 ≤ lat ≤ 90` and `-180 ≤ lon ≤ 180` are carried out on that exact
value).
-/

/-- `\d+(?:\.\d*)?` on a whole candidate group: the leading digits and
the optional fractional digits. -/
def parseDecCore (cs : List Char) : Option (List Char × List Char) :=
  let I := cs.takeWhile Char.isDigit
  let rest := cs.dropWhile Char.isDigit
  if I.isEmpty then none
  else
    match rest with
    | [] => some (I, [])
    | '.' :: fs => if fs.all Char.isDigit then some (I, fs) else none
    | _ => none

/-- The full coordinate group `[-+]?(?:\d+(?:\.\d*)?)|(?:\.\d+)`:
returns the sign and the integer/fraction digit runs on success. -/
def parseDecForm : List Char → Option (Bool × List Char × List Char)
  | [] => none
  | '-' :: rest => (parseDecCore rest).map (fun p => (true, p.1, p.2))
  | '+' :: rest => (parseDecCore rest).map (fun p => (false, p.1, p.2))
  | '.' :: rest =>
    if !rest.isEmpty && rest.all Char.isDigit then some (false, [], rest) else none
  | cs => (parseDecCore cs).map (fun p => (false, p.1, p.2))

def digitsToNat (cs : List Char) : Nat :=
  cs.foldl (fun n c => 10 * n + (c.toNat - 48)) 0

/-- The magnitude of the decimal `I.F` is at most `bound` — the exact
form of the float range checks of the source (the bounds are symmetric,
so the sign is irrelevant). -/
def decInBounds (bound : Nat) (cs : List Char) : Bool :=
  match parseDecForm cs with
  | some (_, I, F) =>
    decide (digitsToNat I * 10 ^ F.length + digitsToNat F ≤ bound * 10 ^ F.length)
  | none => false

/-- The post-guard body of `is_valid_location_coordinates`. -/
def itemIsValidLocationCoordinates : List Char → Bool
  | '@' :: rest =>
    (match splitFirst '/' rest with
     | some (l, r) => decInBounds 90 l && decInBounds 180 r
     | none => false)
  | _ => false

example : itemIsValidLocationCoordinates "@043.26193/010.92708".toList = true := by decide
example : itemIsValidLocationCoordinates "@100.0/0.0".toList = false := by decide
example : itemIsValidLocationCoordinates "@-.5/.5".toList = false := by decide
example : itemIsValidLocationCoordinates "@-0.5/.5".toList = true := by decide
example : itemIsValidLocationCoordinates "@90./180.".toList = true := by decide
example : itemIsValidLocationCoordinates "@90.1/0".toList = false := by decide

/-! ## Date and time literals (source lines 584-647)

The two patterns (strict at line 587, lax at line 585) differ only in
the month and day classes (`0[1-9]` vs `0[0-9]`).  In both, the
month/day group and the minute/second group carry no `?`: after the
year, month, day, hour, minute and second are all mandatory, as is the
`T`.  The conditional groups `(?(hyphen)-)` and `(?(hyphen):)` demand
the separator exactly when the hyphen group matched.  The zone
alternative `\[-+][0-9][0-9](?::[0-9][0-9])?` is transcribed literally:
a literal `[`, one or more `-` (the `+` of the source quantifies the
hyphen), a literal `]`, and the digits.  Each alternation of the
patterns is determined by the next character, so the backtracking match
is equivalent to this deterministic scanner.
-/

def chBetween (lo hi c : Char) : Bool := lo ≤ c && c ≤ hi

/-- Strict `1[0-2]|0[1-9]`; lax `1[0-2]|0[0-9]`. -/
def monthOk (strict : Bool) (a b : Char) : Bool :=
  (a == '1' && chBetween '0' '2' b) ||
  (a == '0' && (if strict then chBetween '1' '9' b else b.isDigit))

/-- Strict `3[01]|0[1-9]|[12][0-9]`; lax `3[01]|0[0-9]|[12][0-9]`. -/
def dayOk (strict : Bool) (a b : Char) : Bool :=
  (a == '3' && (b == '0' || b == '1')) ||
  (a == '0' && (if strict then chBetween '1' '9' b else b.isDigit)) ||
  ((a == '1' || a == '2') && b.isDigit)

/-- `2[0-3]|[01][0-9]` -/
def hourOk (a b : Char) : Bool :=
  (a == '2' && chBetween '0' '3' b) || ((a == '0' || a == '1') && b.isDigit)

/-- `[0-5][0-9]` -/
def minSecOk (a b : Char) : Bool := chBetween '0' '5' a && b.isDigit

/-- Consume the character `c` when `b` is true (the conditional groups
`(?(hyphen)-)` and `(?(hyphen):)`), otherwise consume nothing. -/
def takeIf (b : Bool) (c : Char) (cs : List Char) : Option (List Char) :=
  if b then
    match cs with
    | d :: r => if d == c then some r else none
    | [] => none
  else some cs

/-- Consume two characters accepted by the given two-character class. -/
def take2 (ok : Char → Char → Bool) : List Char → Option (List Char)
  | a :: b :: r => if ok a b then some r else none
  | _ => none

def expectChar (c : Char) : List Char → Option (List Char)
  | d :: r => if d == c then some r else none
  | [] => none

/-- The digits of the precision group `/[0-1]?[0-9]`. -/
def precisionDigitsOk : List Char → Bool
  | [d] => d.isDigit
  | [a, b] => (a == '0' || a == '1') && b.isDigit
  | _ => false

/-- `(?P<precision>/[0-1]?[0-9])?$` -/
def precEnd : List Char → Bool
  | [] => true
  | '/' :: r => precisionDigitsOk r
  | _ => false

/-- `(?P<zone>Z|\[-+][0-9][0-9](?::[0-9][0-9])?)?` followed by the
precision group and the anchor. -/
def zonePrecEnd (cs : List Char) : Bool :=
  match cs with
  | 'Z' :: r => precEnd r
  | '[' :: r =>
    (match r with
     | '-' :: r2 =>
       (match r2.dropWhile (fun c => c == '-') with
        | ']' :: d1 :: d2 :: r3 =>
          d1.isDigit && d2.isDigit &&
          (match r3 with
           | ':' :: e1 :: e2 :: r4 =>
             if e1.isDigit && e2.isDigit then precEnd r4 else false
           | _ => precEnd r3)
        | _ => false)
     | _ => false)
  | _ => precEnd cs

/-- Anchored full match of the date-and-times pattern; `strict` selects
the strict month/day classes. -/
def dtMatch (strict : Bool) (item : List Char) : Bool :=
  match item with
  | '^' :: y1 :: y2 :: y3 :: y4 :: r0 =>
    y1.isDigit && y2.isDigit && y3.isDigit && y4.isDigit &&
    (let hr : Bool × List Char :=
       match r0 with
       | '-' :: t => (true, t)
       | _ => (false, r0)
     (do
       let r2 ← take2 (monthOk strict) hr.2
       let r3 ← takeIf hr.1 '-' r2
       let r4 ← take2 (dayOk strict) r3
       let r5 ← expectChar 'T' r4
       let r6 ← take2 hourOk r5
       let r7 ← takeIf hr.1 ':' r6
       let r8 ← take2 minSecOk r7
       let r9 ← takeIf hr.1 ':' r8
       let r10 ← take2 minSecOk r9
       if zonePrecEnd r10 then some () else none).isSome)
  | _ => false

/-- The post-guard body of `is_valid_date_and_times`: the lax pattern
when `allow_month_or_day_zero` is set, otherwise the strict pattern. -/
def itemIsValidDateAndTimes (opts : KgtkValueOptions) (item : List Char) : Bool :=
  if opts.allow_month_or_day_zero then dtMatch false item else dtMatch true item

example : dtMatch true "^1960-01-01T00:00:00".toList = true := by decide
example : dtMatch true "^19600101T000000".toList = true := by decide
example : dtMatch true "^1960-01-01T00:00:00Z".toList = true := by decide
example : dtMatch true "^1960-01-01T00:00:00Z/9".toList = true := by decide
example : dtMatch true "^1960T00".toList = false := by decide
example : dtMatch false "^1960T00".toList = false := by decide
example : dtMatch true "^1960-01-01T00".toList = false := by decide
example : dtMatch true "^1960-01-01T00:00:00+05:00".toList = false := by decide
example : dtMatch true "^1960-01-01T00:00:00-05".toList = false := by decide
example : dtMatch true "^1960-00-00T00:00:00Z/9".toList = false := by decide
example : dtMatch false "^1960-00-00T00:00:00Z/9".toList = true := by decide
example : dtMatch true "^1960-01-01T00:00:00[-]05:00".toList = true := by decide

/-! ## List splitting (source lines 87-104)

`split_list_re` is `(?<!\\)\|` (the list separator of the format,
escaped): the cell is split at every `|` whose immediately preceding
character is not a backslash.  The lookbehind inspects one character of
the original string, so the scanner below carries one bit `pb` — whether
the previous character was a backslash — and starts with `pb = false`
(at the beginning of the string the lookbehind has nothing to match, so
the negative lookbehind succeeds).

Modelled from the spec: `KgtkFormat.LIST_SEPARATOR` is defined in
`kgtk/join/kgtkformat.py`, which is not part of the sources; the spec
fixes the separator as the `|` character.
-/

def LIST_SEPARATOR : Char := '|'

/-- Prepend a character to the first chunk. -/
def consCar (c : Char) : List (List Char) → List (List Char)
  | [] => [[c]]
  | h :: t => (c :: h) :: t

/-- The splitting scanner; `pb` records whether the previous character
of the original string was a backslash. -/
def splitFrom (pb : Bool) : List Char → List (List Char)
  | [] => [[]]
  | c :: rest =>
    if c == LIST_SEPARATOR && !pb then [] :: splitFrom false rest
    else consCar c (splitFrom (c == '\\') rest)

/-- `KgtkValue.split_list_re.split(value)`. -/
def splitList (cs : List Char) : List (List Char) := splitFrom false cs

/-- `cs` contains no unescaped separator when scanned with previous-was-
backslash bit `pb`. -/
def noSep (pb : Bool) : List Char → Bool
  | [] => true
  | c :: rest => !(c == LIST_SEPARATOR && !pb) && noSep (c == '\\') rest

/-- The previous-was-backslash bit after scanning `cs` starting from
`pb`; `pbAfter false cs = true` iff `cs` ends in a backslash. -/
def pbAfter (pb : Bool) : List Char → Bool
  | [] => pb
  | c :: rest => pbAfter (c == '\\') rest

/-- Join chunks with the separator: the inverse of splitting. -/
def joinSep : List (List Char) → List Char
  | [] => []
  | [x] => x
  | x :: xs => x ++ LIST_SEPARATOR :: joinSep xs

example : splitList "a|b".toList = ["a".toList, "b".toList] := by decide
example : splitList "a\\|b".toList = ["a\\|b".toList] := by decide
example : splitList "".toList = [[]] := by decide
example : splitList "|".toList = [[], []] := by decide

theorem splitFrom_ne_nil (pb : Bool) (cs : List Char) : splitFrom pb cs ≠ [] := by
  induction cs generalizing pb with
  | nil => simp [splitFrom]
  | cons c rest ih =>
    simp only [splitFrom]
    split
    · simp
    · rcases h : splitFrom (c == '\\') rest with _ | ⟨x, xs⟩
      · exact absurd h (ih _)
      · simp [consCar]

theorem joinSep_cons {x : List Char} {l : List (List Char)} (h : l ≠ []) :
    joinSep (x :: l) = x ++ LIST_SEPARATOR :: joinSep l := by
  cases l with
  | nil => exact absurd rfl h
  | cons y ys => rfl

theorem joinSep_consCar (c : Char) {l : List (List Char)} (h : l ≠ []) :
    joinSep (consCar c l) = c :: joinSep l := by
  cases l with
  | nil => exact absurd rfl h
  | cons y ys =>
    cases ys with
    | nil => rfl
    | cons z zs => rfl

theorem joinSep_splitFrom (pb : Bool) (cs : List Char) :
    joinSep (splitFrom pb cs) = cs := by
  induction cs generalizing pb with
  | nil => rfl
  | cons c rest ih =>
    simp only [splitFrom]
    split
    · rename_i hc
      rw [joinSep_cons (splitFrom_ne_nil _ _), List.nil_append, ih]
      have : c = LIST_SEPARATOR := by
        have := hc
        simp at this
        exact this.1
      rw [this]
    · rw [joinSep_consCar _ (splitFrom_ne_nil _ _), ih]

/-- A chunk of a multi-chunk decomposition is strictly shorter than its
join. -/
theorem length_lt_joinSep {chunk : List Char} :
    ∀ {chunks : List (List Char)}, chunk ∈ chunks → 2 ≤ chunks.length →
      chunk.length < (joinSep chunks).length := by
  have hle : ∀ (l : List (List Char)), chunk ∈ l → chunk.length ≤ (joinSep l).length := by
    intro l
    induction l with
    | nil => intro h; cases h
    | cons x xs ih =>
      intro hmem
      rcases List.mem_cons.mp hmem with h | h
      · subst h
        cases xs with
        | nil => simp [joinSep]
        | cons y ys =>
          rw [joinSep_cons (by simp)]
          simp
      · cases xs with
        | nil => cases h
        | cons y ys =>
          rw [joinSep_cons (by simp)]
          calc chunk.length ≤ (joinSep (y :: ys)).length := ih h
            _ ≤ _ := by simp; omega
  intro chunks hmem hlen
  cases chunks with
  | nil => cases hmem
  | cons x xs =>
    cases xs with
    | nil => simp at hlen
    | cons y ys =>
      rw [joinSep_cons (by simp)]
      rcases List.mem_cons.mp hmem with h | h
      · subst h; simp
      · have := hle (y :: ys) h
        simp only [List.length_append, List.length_cons]
        omega

/-- A string with no unescaped separator splits into itself alone. -/
theorem splitFrom_of_noSep {pb : Bool} {cs : List Char} (h : noSep pb cs = true) :
    splitFrom pb cs = [cs] := by
  induction cs generalizing pb with
  | nil => rfl
  | cons c rest ih =>
    simp only [noSep, Bool.and_eq_true, Bool.not_eq_true'] at h
    simp only [splitFrom, h.1, Bool.false_eq_true, if_false]
    rw [ih h.2]
    rfl

/-- Every chunk produced by the scanner is free of unescaped separators:
the head chunk with respect to the incoming bit, all later chunks with
respect to a fresh scan. -/
theorem splitFrom_chunks_noSep (cs : List Char) (pb : Bool) :
    ∃ h t, splitFrom pb cs = h :: t ∧ noSep pb h = true ∧
      ∀ chunk ∈ t, noSep false chunk = true := by
  induction cs generalizing pb with
  | nil => exact ⟨[], [], rfl, rfl, by intro chunk h; cases h⟩
  | cons c rest ih =>
    by_cases hc : (c == LIST_SEPARATOR && !pb) = true
    · obtain ⟨h, t, heq, hh, ht⟩ := ih false
      refine ⟨[], h :: t, ?_, rfl, ?_⟩
      · simp only [splitFrom, hc, if_true, heq]
      · intro chunk hmem
        rcases List.mem_cons.mp hmem with h1 | h1
        · subst h1; exact hh
        · exact ht chunk h1
    · obtain ⟨h, t, heq, hh, ht⟩ := ih (c == '\\')
      have hfalse : (c == LIST_SEPARATOR && !pb) = false := by
        cases hb : (c == LIST_SEPARATOR && !pb)
        · rfl
        · exact absurd hb hc
      refine ⟨c :: h, t, ?_, ?_, ht⟩
      · simp [splitFrom, hfalse, heq, consCar]
      · simp [noSep, hfalse, hh]

/-- Every chunk of a split is free of unescaped separators. -/
theorem splitList_chunks_noSep {cs chunk : List Char} (h : chunk ∈ splitList cs) :
    noSep false chunk = true := by
  obtain ⟨hd, t, heq, hh, ht⟩ := splitFrom_chunks_noSep cs false
  rw [splitList, heq] at h
  rcases List.mem_cons.mp h with h1 | h1
  · subst h1; exact hh
  · exact ht chunk h1

/-- Splitting after appending a separator: the separator-free prefix
becomes the first chunk. -/
theorem splitFrom_append (B : List Char) :
    ∀ (A : List Char) (pb : Bool), noSep pb A = true → pbAfter pb A = false →
      splitFrom pb (A ++ LIST_SEPARATOR :: B) = A :: splitFrom false B := by
  intro A
  induction A with
  | nil =>
    intro pb _ hpb
    simp only [pbAfter] at hpb
    simp [splitFrom, hpb]
  | cons a A' ih =>
    intro pb hns hpb
    simp only [noSep, Bool.and_eq_true, Bool.not_eq_true'] at hns
    simp only [pbAfter] at hpb
    show splitFrom pb (a :: (A' ++ LIST_SEPARATOR :: B)) = (a :: A') :: splitFrom false B
    simp only [splitFrom, hns.1, Bool.false_eq_true, if_false]
    rw [ih _ hns.2 hpb]
    rfl

/-! ## The `KgtkValue` wrapper and its predicate methods

Modelled from the spec: `KgtkFormat.TRUE_SYMBOL` and
`KgtkFormat.FALSE_SYMBOL` live in `kgtk/join/kgtkformat.py`, which is
not part of the sources; the spec says only that they are two reserved
boolean tokens, spelled `True` and `False` here.
-/

def TRUE_SYMBOL : List Char := ['T', 'r', 'u', 'e']

def FALSE_SYMBOL : List Char := ['F', 'a', 'l', 's', 'e']

structure KgtkValue where
  value : List Char
  options : KgtkValueOptions

/-- `get_list` (the memoised cache only avoids recomputation and is
behaviourally invisible). -/
def getList (v : KgtkValue) : List (List Char) := splitList v.value

/-- `get_item`: the whole value for `None`, the indexed split item
otherwise (all uses below index within bounds, so the out-of-range
behaviour is irrelevant; `[]` stands in for the Python `IndexError`). -/
def getItem (v : KgtkValue) (idx : Option Nat) : List Char :=
  match idx with
  | none => v.value
  | some i => (getList v).getD i []

def isList (v : KgtkValue) : Bool := 1 < (getList v).length

/-- `get_values`: the `if not self.is_list` test of the source compares
a bound method, which is always truthy, so the `else` branch always
runs; every split item is wrapped with the same options. -/
def getValues (v : KgtkValue) : List KgtkValue :=
  (getList v).map (fun item => ⟨item, v.options⟩)

/-- The guard `self.is_list() and idx is None` shared by every
predicate. -/
def listGuard (v : KgtkValue) (idx : Option Nat) : Bool :=
  isList v && idx.isNone

def is_empty (v : KgtkValue) (idx : Option Nat) : Bool :=
  if listGuard v idx then false
  else (getItem v idx).isEmpty

def numberStartChar (c : Char) : Bool :=
  c.isDigit || c == '+' || c == '-' || c == '.'

/-- `v.startswith(("0", ..., "9", "+", "-", "."))`. -/
def itemNumberStart : List Char → Bool
  | c :: _ => numberStartChar c
  | [] => false

def is_number_or_quantity (v : KgtkValue) (idx : Option Nat) : Bool :=
  if listGuard v idx then false
  else itemNumberStart (getItem v idx)

def itemIsValidNumberOrQuantity (item : List Char) : Bool :=
  itemNumberStart item && number_or_quantity_re item

def is_valid_number_or_quantity (v : KgtkValue) (idx : Option Nat) : Bool :=
  if listGuard v idx then false
  else itemIsValidNumberOrQuantity (getItem v idx)

def itemIsValidNumber (item : List Char) : Bool :=
  itemNumberStart item && number_re item

def is_valid_number (v : KgtkValue) (idx : Option Nat) : Bool :=
  if listGuard v idx then false
  else itemIsValidNumber (getItem v idx)

def itemIsValidQuantity (item : List Char) : Bool :=
  itemNumberStart item && quantity_re item

def is_valid_quantity (v : KgtkValue) (idx : Option Nat) : Bool :=
  if listGuard v idx then false
  else itemIsValidQuantity (getItem v idx)

def itemIsString : List Char → Bool
  | c :: _ => c == '"'
  | [] => false

def is_string (v : KgtkValue) (idx : Option Nat) : Bool :=
  if listGuard v idx then false
  else itemIsString (getItem v idx)

/-- Post-guard body of `is_valid_string`: the leading-quote test, then
the lax or strict pattern. -/
def itemIsValidString (opts : KgtkValueOptions) (item : List Char) : Bool :=
  itemIsString item &&
  (if opts.allow_lax_strings then quotedLax '"' item else quotedStrict '"' item)

def is_valid_string (v : KgtkValue) (idx : Option Nat) : Bool :=
  if listGuard v idx then false
  else itemIsValidString v.options (getItem v idx)

def itemIsStructuredLiteral : List Char → Bool
  | c :: _ => c == '^' || c == '@' || c == '\'' || c == '!'
  | [] => false

def is_structured_literal (v : KgtkValue) (idx : Option Nat) : Bool :=
  if listGuard v idx then false
  else itemIsStructuredLiteral (getItem v idx)

/-- `is_symbol`: the negation of the three coarse predicates (whose own
guards repeat the guard already tested here). -/
def is_symbol (v : KgtkValue) (idx : Option Nat) : Bool :=
  if listGuard v idx then false
  else !(is_number_or_quantity v idx || is_string v idx || is_structured_literal v idx)

def itemIsBoolean (item : List Char) : Bool :=
  item == TRUE_SYMBOL || item == FALSE_SYMBOL

def is_boolean (v : KgtkValue) (idx : Option Nat) : Bool :=
  if listGuard v idx then false
  else itemIsBoolean (getItem v idx)

def itemIsLanguageQualifiedString : List Char → Bool
  | c :: _ => c == '\''
  | [] => false

def is_language_qualified_string (v : KgtkValue) (idx : Option Nat) : Bool :=
  if listGuard v idx then false
  else itemIsLanguageQualifiedString (getItem v idx)

def is_valid_language_qualified_string (o : LangOracles) (v : KgtkValue)
    (idx : Option Nat) : Bool :=
  if listGuard v idx then false
  else itemIsValidLanguageQualifiedString o v.options (getItem v idx)

def itemIsLocationCoordinates : List Char → Bool
  | c :: _ => c == '@'
  | [] => false

def is_location_coordinates (v : KgtkValue) (idx : Option Nat) : Bool :=
  if listGuard v idx then false
  else itemIsLocationCoordinates (getItem v idx)

def is_valid_location_coordinates (v : KgtkValue) (idx : Option Nat) : Bool :=
  if listGuard v idx then false
  else itemIsValidLocationCoordinates (getItem v idx)

def itemIsDateAndTimes : List Char → Bool
  | c :: _ => c == '^'
  | [] => false

def is_date_and_times (v : KgtkValue) (idx : Option Nat) : Bool :=
  if listGuard v idx then false
  else itemIsDateAndTimes (getItem v idx)

def is_valid_date_and_times (v : KgtkValue) (idx : Option Nat) : Bool :=
  if listGuard v idx then false
  else itemIsValidDateAndTimes v.options (getItem v idx)

def itemIsExtension : List Char → Bool
  | c :: _ => c == '!'
  | [] => false

def is_extension (v : KgtkValue) (idx : Option Nat) : Bool :=
  if listGuard v idx then false
  else itemIsExtension (getItem v idx)

/-- `is_valid_literal`: the category dispatch chain of the source. -/
def is_valid_literal (o : LangOracles) (v : KgtkValue) (idx : Option Nat) : Bool :=
  if listGuard v idx then false
  else if is_string v idx then is_valid_string v idx
  else if is_number_or_quantity v idx then is_valid_number_or_quantity v idx
  else if is_structured_literal v idx then
    (if is_language_qualified_string v idx then is_valid_language_qualified_string o v idx
     else if is_location_coordinates v idx then is_valid_location_coordinates v idx
     else if is_date_and_times v idx then is_valid_date_and_times v idx
     else if is_extension v idx then false
     else false)
  else false

def is_valid_item (o : LangOracles) (v : KgtkValue) (idx : Option Nat) : Bool :=
  if listGuard v idx then false
  else if is_empty v idx then true
  else if is_valid_literal o v idx then true
  else is_symbol v idx

/-- `is_valid`: the conjunction loop over `get_values`. -/
def is_valid (o : LangOracles) (v : KgtkValue) : Bool :=
  (getValues v).foldl (fun result kv => result && is_valid_item o kv none) true

/-- The first-flag join loop of `describe` on a list value. -/
def joinStr : List String → String
  | [] => ""
  | [x] => x
  | x :: xs => x ++ String.mk [LIST_SEPARATOR] ++ joinStr xs

/-- `describe`: on a list value (queried without an index), the
recursive per-item descriptions joined by the separator; otherwise the
category/validity label chain of the source. -/
def describe (o : LangOracles) (v : KgtkValue) (idx : Option Nat) : String :=
  if h : listGuard v idx = true then
    joinStr ((getList v).attach.map (fun x => describe o ⟨x.1, v.options⟩ none))
  else
    if is_empty v idx then "Empty"
    else if is_string v idx then
      (if is_valid_string v idx then "String" else "Invalid String")
    else if is_number_or_quantity v idx then
      (if is_valid_number v idx then "Number"
       else if is_valid_quantity v idx then "Quantity"
       else "Invalid Number or Quantity")
    else if is_structured_literal v idx then
      (if is_language_qualified_string v idx then
         (if is_valid_language_qualified_string o v idx then "Language Qualified String"
          else "Invalid Language Qualified String")
       else if is_location_coordinates v idx then
         (if is_valid_location_coordinates v idx then "Location Coordinates"
          else "Invalid Location Coordinates")
       else if is_date_and_times v idx then
         (if is_valid_date_and_times v idx then "Date and Times"
          else "Invalid Date and Times")
       else if is_extension v idx then "Extension (unvalidated)"
       else "Invalid Structured Literal")
    else "Symbol"
termination_by v.value.length
decreasing_by
  simp_wf
  have hl : isList v = true := by
    simp only [listGuard, Bool.and_eq_true] at h
    exact h.1
  have h2 : 2 ≤ (getList v).length := by
    simp only [isList, decide_eq_true_eq] at hl
    omega
  have h3 := length_lt_joinSep x.2 h2
  have h4 : joinSep (getList v) = v.value := joinSep_splitFrom false v.value
  rw [h4] at h3
  exact h3

/-! ## Guard-free per-item semantics

For theorem statements it is convenient to have the classification and
validation of one item without the whole-cell guard; the bridge lemmas
below show that each method coincides with its item version whenever the
guard does not fire.
-/

def itemIsSymbol (item : List Char) : Bool :=
  !(itemNumberStart item || itemIsString item || itemIsStructuredLiteral item)

def itemIsValidLiteral (o : LangOracles) (opts : KgtkValueOptions) (item : List Char) : Bool :=
  if itemIsString item then itemIsValidString opts item
  else if itemNumberStart item then itemIsValidNumberOrQuantity item
  else if itemIsStructuredLiteral item then
    (if itemIsLanguageQualifiedString item then itemIsValidLanguageQualifiedString o opts item
     else if itemIsLocationCoordinates item then itemIsValidLocationCoordinates item
     else if itemIsDateAndTimes item then itemIsValidDateAndTimes opts item
     else if itemIsExtension item then false
     else false)
  else false

def itemIsValidItem (o : LangOracles) (opts : KgtkValueOptions) (item : List Char) : Bool :=
  if item.isEmpty then true
  else if itemIsValidLiteral o opts item then true
  else itemIsSymbol item

def itemDescribe (o : LangOracles) (opts : KgtkValueOptions) (item : List Char) : String :=
  if item.isEmpty then "Empty"
  else if itemIsString item then
    (if itemIsValidString opts item then "String" else "Invalid String")
  else if itemNumberStart item then
    (if itemIsValidNumber item then "Number"
     else if itemIsValidQuantity item then "Quantity"
     else "Invalid Number or Quantity")
  else if itemIsStructuredLiteral item then
    (if itemIsLanguageQualifiedString item then
       (if itemIsValidLanguageQualifiedString o opts item then "Language Qualified String"
        else "Invalid Language Qualified String")
     else if itemIsLocationCoordinates item then
       (if itemIsValidLocationCoordinates item then "Location Coordinates"
        else "Invalid Location Coordinates")
     else if itemIsDateAndTimes item then
       (if itemIsValidDateAndTimes opts item then "Date and Times"
        else "Invalid Date and Times")
     else if itemIsExtension item then "Extension (unvalidated)"
     else "Invalid Structured Literal")
  else "Symbol"

theorem is_symbol_bridge {v : KgtkValue} {idx : Option Nat}
    (h : listGuard v idx = false) :
    is_symbol v idx = itemIsSymbol (getItem v idx) := by
  simp [is_symbol, is_number_or_quantity, is_string, is_structured_literal,
    itemIsSymbol, h]

theorem is_valid_literal_bridge {o : LangOracles} {v : KgtkValue} {idx : Option Nat}
    (h : listGuard v idx = false) :
    is_valid_literal o v idx = itemIsValidLiteral o v.options (getItem v idx) := by
  simp only [is_valid_literal, is_string, is_valid_string, is_number_or_quantity,
    is_valid_number_or_quantity, is_structured_literal, is_language_qualified_string,
    is_valid_language_qualified_string, is_location_coordinates,
    is_valid_location_coordinates, is_date_and_times, is_valid_date_and_times,
    is_extension, h, Bool.false_eq_true, if_false, itemIsValidLiteral]

theorem is_valid_item_bridge {o : LangOracles} {v : KgtkValue} {idx : Option Nat}
    (h : listGuard v idx = false) :
    is_valid_item o v idx = itemIsValidItem o v.options (getItem v idx) := by
  simp only [is_valid_item, is_empty, h, Bool.false_eq_true, if_false,
    is_valid_literal_bridge h, is_symbol_bridge h, itemIsValidItem]

theorem describe_bridge {o : LangOracles} {v : KgtkValue} {idx : Option Nat}
    (h : listGuard v idx = false) :
    describe o v idx = itemDescribe o v.options (getItem v idx) := by
  rw [describe]
  simp only [h, Bool.false_eq_true, dite_false, is_empty, if_false, is_string,
    is_valid_string, is_number_or_quantity, is_valid_number, is_valid_quantity,
    is_structured_literal, is_language_qualified_string,
    is_valid_language_qualified_string, is_location_coordinates,
    is_valid_location_coordinates, is_date_and_times, is_valid_date_and_times,
    is_extension, itemDescribe, itemIsValidNumber, itemIsValidQuantity]

/-! ## Helper lemmas -/

theorem foldl_and {α : Type} (f : α → Bool) :
    ∀ (l : List α) (b : Bool), l.foldl (fun r x => r && f x) b = (b && l.all f) := by
  intro l
  induction l with
  | nil => intro b; simp
  | cons x xs ih =>
    intro b
    simp only [List.foldl_cons, List.all_cons, ih, Bool.and_assoc]

theorem allCongr {α : Type} {l : List α} {p q : α → Bool}
    (h : ∀ x ∈ l, p x = q x) : l.all p = l.all q := by
  induction l with
  | nil => rfl
  | cons x xs ih =>
    simp only [List.all_cons]
    rw [h x (List.mem_cons_self x xs), ih (fun y hy => h y (List.mem_cons_of_mem x hy))]

/-- Options with `allow_month_or_day_zero` set, the other flags at their
defaults. -/
def LAX_DATE_OPTIONS : KgtkValueOptions :=
  ⟨true, false, false, false, DEFAULT_ADDITIONAL_LANGUAGE_CODES⟩

/-! ## The claims -/

/-- C1: the claim says an item of the form `^` + 4-digit year + `T` +
2-digit hour, such as `^1960T00`, is accepted by
`is_valid_date_and_times` under both the strict and the lax options.
The code rejects it in both modes: in `strict_date_and_times_re` and
`lax_date_and_times_re` the month/day group and the minute/second group
carry no `?`, so month, day, minute and second are all mandatory — the
function's own docstring (`YYYYT...` accepted, `YYYY-MM-DDTHH` valid)
promises otherwise.  The control conjunct shows the full form is
accepted. -/
theorem c1_date_hour_only_rejected :
    is_valid_date_and_times ⟨"^1960T00".toList, DEFAULT_KGTK_VALUE_OPTIONS⟩ none = false ∧
    is_valid_date_and_times ⟨"^1960T00".toList, LAX_DATE_OPTIONS⟩ none = false ∧
    is_valid_date_and_times ⟨"^1960-01-01T00:00:00".toList, DEFAULT_KGTK_VALUE_OPTIONS⟩ none
      = true := by
  decide

/-- C2: the claim says an otherwise-valid strict date/time followed by a
zone `sign HH (:MM)?`, e.g. `^1960-01-01T00:00:00+05:00` or
`^1960-01-01T00:00:00-05`, is accepted.  The code rejects both: the zone
token of the patterns is `\[-+]` — a literal `[`, one or more `-`, a
literal `]` — not a sign class, so no `+HH`/`-HH` zone can match (while
`Z` does, and the accidental `[-]05:00` form does). -/
theorem c2_sign_zone_rejected :
    is_valid_date_and_times ⟨"^1960-01-01T00:00:00+05:00".toList,
      DEFAULT_KGTK_VALUE_OPTIONS⟩ none = false ∧
    is_valid_date_and_times ⟨"^1960-01-01T00:00:00-05".toList,
      DEFAULT_KGTK_VALUE_OPTIONS⟩ none = false ∧
    is_valid_date_and_times ⟨"^1960-01-01T00:00:00Z".toList,
      DEFAULT_KGTK_VALUE_OPTIONS⟩ none = true ∧
    is_valid_date_and_times ⟨"^1960-01-01T00:00:00[-]05:00".toList,
      DEFAULT_KGTK_VALUE_OPTIONS⟩ none = true := by
  decide

/-- C3: the claim says `0b`/`0o`/`0x` prefixed integer literals without
a long suffix, e.g. `0b101`, `0o277`, `0x24F`, make `is_valid_number`
return true.  The code rejects all three — the docstring of
`is_valid_number` lists exactly these as accepted examples — because
`bininteger_pat`/`octinteger_pat`/`hexinteger_pat` contain the literal
text `":` where the non-capturing group marker `?:` was intended, and
their long-integer suffix is not optional.  The control conjunct shows a
decimal integer is accepted. -/
theorem c3_prefixed_integers_rejected :
    is_valid_number ⟨"0b101".toList, DEFAULT_KGTK_VALUE_OPTIONS⟩ none = false ∧
    is_valid_number ⟨"0o277".toList, DEFAULT_KGTK_VALUE_OPTIONS⟩ none = false ∧
    is_valid_number ⟨"0x24F".toList, DEFAULT_KGTK_VALUE_OPTIONS⟩ none = false ∧
    is_valid_number ⟨"123".toList, DEFAULT_KGTK_VALUE_OPTIONS⟩ none = true := by
  decide

/-- C10: the strict Number and Quantity grammars overlap on `1J`, which
matches `numeric_pat` as an imaginary-suffixed number and `quantity_pat`
as the number `1` with SI unit `J`; `describe` reports it as `Number`
because the number test is made first. -/
theorem c10_number_quantity_overlap :
    is_valid_number ⟨"1J".toList, DEFAULT_KGTK_VALUE_OPTIONS⟩ none = true ∧
    is_valid_quantity ⟨"1J".toList, DEFAULT_KGTK_VALUE_OPTIONS⟩ none = true ∧
    describe oracleNone ⟨"1J".toList, DEFAULT_KGTK_VALUE_OPTIONS⟩ none = "Number" := by
  refine ⟨by decide, by decide, ?_⟩
  rw [describe_bridge (by decide)]
  decide

/-- C9: every per-item predicate returns false when the cell is a
multi-item list and no item index is given — the whole-cell guard is
applied uniformly across all nineteen predicates. -/
theorem c9_list_guard_uniform (o : LangOracles) (v : KgtkValue) (h : isList v = true) :
    is_empty v none = false ∧
    is_string v none = false ∧
    is_valid_string v none = false ∧
    is_number_or_quantity v none = false ∧
    is_valid_number v none = false ∧
    is_valid_quantity v none = false ∧
    is_valid_number_or_quantity v none = false ∧
    is_structured_literal v none = false ∧
    is_symbol v none = false ∧
    is_boolean v none = false ∧
    is_language_qualified_string v none = false ∧
    is_valid_language_qualified_string o v none = false ∧
    is_location_coordinates v none = false ∧
    is_valid_location_coordinates v none = false ∧
    is_date_and_times v none = false ∧
    is_valid_date_and_times v none = false ∧
    is_extension v none = false ∧
    is_valid_literal o v none = false ∧
    is_valid_item o v none = false := by
  have hg : listGuard v none = true := by simp [listGuard, h]
  simp [is_empty, is_string, is_valid_string, is_number_or_quantity, is_valid_number,
    is_valid_quantity, is_valid_number_or_quantity, is_structured_literal, is_symbol,
    is_boolean, is_language_qualified_string, is_valid_language_qualified_string,
    is_location_coordinates, is_valid_location_coordinates, is_date_and_times,
    is_valid_date_and_times, is_extension, is_valid_literal, is_valid_item, hg]

/-- C9 witness: the guard fires on the concrete two-item list `a|b`. -/
theorem c9_list_guard_uniform_witness :
    isList ⟨"a|b".toList, DEFAULT_KGTK_VALUE_OPTIONS⟩ = true ∧
    is_empty ⟨"a|b".toList, DEFAULT_KGTK_VALUE_OPTIONS⟩ none = false ∧
    is_string ⟨"a|b".toList, DEFAULT_KGTK_VALUE_OPTIONS⟩ none = false ∧
    is_valid_string ⟨"a|b".toList, DEFAULT_KGTK_VALUE_OPTIONS⟩ none = false ∧
    is_number_or_quantity ⟨"a|b".toList, DEFAULT_KGTK_VALUE_OPTIONS⟩ none = false ∧
    is_valid_number ⟨"a|b".toList, DEFAULT_KGTK_VALUE_OPTIONS⟩ none = false ∧
    is_valid_quantity ⟨"a|b".toList, DEFAULT_KGTK_VALUE_OPTIONS⟩ none = false ∧
    is_valid_number_or_quantity ⟨"a|b".toList, DEFAULT_KGTK_VALUE_OPTIONS⟩ none = false ∧
    is_structured_literal ⟨"a|b".toList, DEFAULT_KGTK_VALUE_OPTIONS⟩ none = false ∧
    is_symbol ⟨"a|b".toList, DEFAULT_KGTK_VALUE_OPTIONS⟩ none = false ∧
    is_boolean ⟨"a|b".toList, DEFAULT_KGTK_VALUE_OPTIONS⟩ none = false ∧
    is_language_qualified_string ⟨"a|b".toList, DEFAULT_KGTK_VALUE_OPTIONS⟩ none = false ∧
    is_valid_language_qualified_string oracleNone
      ⟨"a|b".toList, DEFAULT_KGTK_VALUE_OPTIONS⟩ none = false ∧
    is_location_coordinates ⟨"a|b".toList, DEFAULT_KGTK_VALUE_OPTIONS⟩ none = false ∧
    is_valid_location_coordinates ⟨"a|b".toList, DEFAULT_KGTK_VALUE_OPTIONS⟩ none = false ∧
    is_date_and_times ⟨"a|b".toList, DEFAULT_KGTK_VALUE_OPTIONS⟩ none = false ∧
    is_valid_date_and_times ⟨"a|b".toList, DEFAULT_KGTK_VALUE_OPTIONS⟩ none = false ∧
    is_extension ⟨"a|b".toList, DEFAULT_KGTK_VALUE_OPTIONS⟩ none = false ∧
    is_valid_literal oracleNone ⟨"a|b".toList, DEFAULT_KGTK_VALUE_OPTIONS⟩ none = false ∧
    is_valid_item oracleNone ⟨"a|b".toList, DEFAULT_KGTK_VALUE_OPTIONS⟩ none = false := by
  have h := c9_list_guard_uniform oracleNone ⟨"a|b".toList, DEFAULT_KGTK_VALUE_OPTIONS⟩
    (by decide)
  exact ⟨by decide, h.1, h.2.1, h.2.2.1, h.2.2.2.1, h.2.2.2.2.1, h.2.2.2.2.2.1,
    h.2.2.2.2.2.2.1, h.2.2.2.2.2.2.2.1, h.2.2.2.2.2.2.2.2.1, h.2.2.2.2.2.2.2.2.2.1,
    h.2.2.2.2.2.2.2.2.2.2.1, h.2.2.2.2.2.2.2.2.2.2.2.1, h.2.2.2.2.2.2.2.2.2.2.2.2.1,
    h.2.2.2.2.2.2.2.2.2.2.2.2.2.1, h.2.2.2.2.2.2.2.2.2.2.2.2.2.2.1,
    h.2.2.2.2.2.2.2.2.2.2.2.2.2.2.2.1, h.2.2.2.2.2.2.2.2.2.2.2.2.2.2.2.2.1,
    h.2.2.2.2.2.2.2.2.2.2.2.2.2.2.2.2.2.1, h.2.2.2.2.2.2.2.2.2.2.2.2.2.2.2.2.2.2⟩

/-- C6: `is_valid` equals the conjunction of the guard-free per-item
validity over every item of the cell's list split (an empty item is
valid inside `itemIsValidItem`).  In particular a single-item cell is
valid iff its one item is, and one invalid item makes the cell
invalid. -/
theorem c6_is_valid_eq_all_items (o : LangOracles) (v : KgtkValue) :
    is_valid o v = (getList v).all (fun item => itemIsValidItem o v.options item) := by
  unfold is_valid getValues
  rw [List.foldl_map, foldl_and, Bool.true_and]
  apply allCongr
  intro chunk hmem
  have hns : noSep false chunk = true := splitList_chunks_noSep hmem
  have hsingle : splitList chunk = [chunk] := splitFrom_of_noSep hns
  have hguard : listGuard ⟨chunk, v.options⟩ none = false := by
    simp [listGuard, isList, getList, hsingle]
  rw [is_valid_item_bridge hguard]
  rfl

/-- C7: `describe` distributes over the list separator: when `A` and `B`
contain no unescaped separator and do not end in a backslash, describing
`A|B` yields `describe A`, the separator, and `describe B`. -/
theorem c7_describe_hom (o : LangOracles) (opts : KgtkValueOptions) (A B : List Char)
    (hA : noSep false A = true) (hAe : pbAfter false A = false)
    (hB : noSep false B = true) (hBe : pbAfter false B = false) :
    describe o ⟨A ++ LIST_SEPARATOR :: B, opts⟩ none =
      describe o ⟨A, opts⟩ none ++ String.mk [LIST_SEPARATOR] ++
        describe o ⟨B, opts⟩ none := by
  have hsplit : splitList (A ++ LIST_SEPARATOR :: B) = [A, B] := by
    rw [splitList, splitFrom_append B A false hA hAe, splitFrom_of_noSep hB]
  have hguard : listGuard ⟨A ++ LIST_SEPARATOR :: B, opts⟩ none = true := by
    simp [listGuard, isList, getList, hsplit]
  rw [describe, dif_pos hguard]
  have hgl : getList ⟨A ++ LIST_SEPARATOR :: B, opts⟩ = [A, B] := hsplit
  rw [List.attach_map_val
    (l := getList ⟨A ++ LIST_SEPARATOR :: B, opts⟩)
    (f := fun item => describe o ⟨item, opts⟩ none), hgl]
  rfl

/-- C7 witness: the homomorphism at the concrete two-item cell `1|b`. -/
theorem c7_describe_hom_witness :
    describe oracleNone ⟨['1'] ++ LIST_SEPARATOR :: ['b'], DEFAULT_KGTK_VALUE_OPTIONS⟩
        none =
      describe oracleNone ⟨['1'], DEFAULT_KGTK_VALUE_OPTIONS⟩ none ++
        String.mk [LIST_SEPARATOR] ++
        describe oracleNone ⟨['b'], DEFAULT_KGTK_VALUE_OPTIONS⟩ none :=
  c7_describe_hom oracleNone DEFAULT_KGTK_VALUE_OPTIONS ['1'] ['b']
    (by decide) (by decide) (by decide) (by decide)

/-- C8: for a non-empty, non-list item, exactly one of the coarse
predicates `is_string`, `is_number_or_quantity`, `is_structured_literal`
and `is_symbol` holds, and a structured literal falls under exactly one
of `is_date_and_times`, `is_location_coordinates`,
`is_language_qualified_string` and `is_extension`, all determined by the
leading character. -/
theorem c8_dispatch_partition (v : KgtkValue) (h1 : isList v = false)
    (h2 : v.value ≠ []) :
    ((is_string v none).toNat + (is_number_or_quantity v none).toNat +
      (is_structured_literal v none).toNat + (is_symbol v none).toNat = 1) ∧
    (is_structured_literal v none = true →
      (is_date_and_times v none).toNat + (is_location_coordinates v none).toNat +
        (is_language_qualified_string v none).toNat + (is_extension v none).toNat = 1) := by
  have hg : listGuard v none = false := by simp [listGuard, h1]
  simp only [is_string, is_number_or_quantity, is_structured_literal,
    is_date_and_times, is_location_coordinates, is_language_qualified_string,
    is_extension, is_symbol_bridge hg, hg, Bool.false_eq_true, if_false]
  rcases hval : getItem v none with _ | ⟨c, rest⟩
  · exact absurd hval h2
  · simp only [itemIsString, itemNumberStart, itemIsStructuredLiteral, itemIsSymbol,
      itemIsDateAndTimes, itemIsLocationCoordinates, itemIsLanguageQualifiedString,
      itemIsExtension]
    by_cases h3 : (c == '^' || c == '@' || c == '\'' || c == '!') = true
    · have h3' := h3
      simp only [Bool.or_eq_true, beq_iff_eq] at h3'
      rcases h3' with ((h | h) | h) | h <;> subst h <;> decide
    · have h3' : (c == '^' || c == '@' || c == '\'' || c == '!') = false := by
        cases hb : (c == '^' || c == '@' || c == '\'' || c == '!')
        · rfl
        · exact absurd hb h3
      by_cases h4 : c = '"'
      · subst h4
        decide
      · have hb1 : (c == '"') = false := by simp [h4]
        by_cases h5 : numberStartChar c = true
        · simp [hb1, h3', h5]
        · have h5' : numberStartChar c = false := by
            cases hnb : numberStartChar c
            · rfl
            · exact absurd hnb h5
          simp [hb1, h3', h5']

/-- C8 witness: the partition at the concrete non-list symbol item `w`. -/
theorem c8_dispatch_partition_witness :
    isList ⟨['w'], DEFAULT_KGTK_VALUE_OPTIONS⟩ = false ∧
    (((is_string ⟨['w'], DEFAULT_KGTK_VALUE_OPTIONS⟩ none).toNat +
      (is_number_or_quantity ⟨['w'], DEFAULT_KGTK_VALUE_OPTIONS⟩ none).toNat +
      (is_structured_literal ⟨['w'], DEFAULT_KGTK_VALUE_OPTIONS⟩ none).toNat +
      (is_symbol ⟨['w'], DEFAULT_KGTK_VALUE_OPTIONS⟩ none).toNat = 1) ∧
    (is_structured_literal ⟨['w'], DEFAULT_KGTK_VALUE_OPTIONS⟩ none = true →
      (is_date_and_times ⟨['w'], DEFAULT_KGTK_VALUE_OPTIONS⟩ none).toNat +
        (is_location_coordinates ⟨['w'], DEFAULT_KGTK_VALUE_OPTIONS⟩ none).toNat +
        (is_language_qualified_string ⟨['w'], DEFAULT_KGTK_VALUE_OPTIONS⟩ none).toNat +
        (is_extension ⟨['w'], DEFAULT_KGTK_VALUE_OPTIONS⟩ none).toNat = 1)) :=
  ⟨by decide, c8_dispatch_partition ⟨['w'], DEFAULT_KGTK_VALUE_OPTIONS⟩
    (by decide) (by decide)⟩

/-- Options with the additional-codes allow-list enabled and the default
list `["mo"]`. -/
def MO_ALLOW_OPTIONS : KgtkValueOptions :=
  ⟨false, false, false, true, DEFAULT_ADDITIONAL_LANGUAGE_CODES⟩

/-- C4 counterexample: with allow-list `["mo"]` enabled, `'x'@mo-xx` is
accepted even though `mo-xx` is not a member of the list — so step (4)
of the cascade does not test the original lowercase tag.  (The oracles
reject every lookup, faithful to the retired code `mo`, which is absent
from the registries — the reason it is on the default allow-list.) -/
theorem c4_allow_list_counterexample :
    is_valid_language_qualified_string oracleNone
      ⟨"'x'@mo-xx".toList, MO_ALLOW_OPTIONS⟩ none = true ∧
    MO_ALLOW_OPTIONS.additional_language_codes.contains "mo-xx".toList = false := by
  decide

/-- C4 amended: when the allow-list is enabled, the final fallback of
the cascade tests the language code left in the variable `lang` after
the hyphen split — the lowercase primary sub-tag, not the original
hyphenated tag.  For the tag `mo-xx`, whenever the registry lookups for
`mo` fail, validity equals membership of `mo` (never of `mo-xx`) in the
allow-list. -/
theorem c4_allow_list_checks_split_code (o : LangOracles) (opts : KgtkValueOptions)
    (h2 : o.alpha2 ['m', 'o'] = false) (h5 : o.part5 ['m', 'o'] = false)
    (hallow : opts.allow_additional_language_codes = true) :
    is_valid_language_qualified_string o ⟨"'x'@mo-xx".toList, opts⟩ none =
      opts.additional_language_codes.contains ['m', 'o'] := by
  have hle : is_valid_language_qualified_string o ⟨"'x'@mo-xx".toList, opts⟩ none =
      ((if opts.allow_lax_lq_strings then quotedLax '\'' "'x'".toList
        else quotedStrict '\'' "'x'".toList) && langTagOk "mo-xx".toList &&
        langCascade o opts ['m', 'o', '-', 'x', 'x']) := rfl
  have hcas : langCascade o opts ['m', 'o', '-', 'x', 'x'] =
      (if (o.alpha2 ['m', 'o'] || o.part5 ['m', 'o']) = true then true
       else opts.allow_additional_language_codes &&
         opts.additional_language_codes.contains ['m', 'o']) := rfl
  have hq1 : quotedStrict '\'' ['\'', 'x', '\''] = true := by decide
  have hq2 : quotedLax '\'' ['\'', 'x', '\''] = true := by decide
  have htag : langTagOk ['m', 'o', '-', 'x', 'x'] = true := by decide
  rw [hle, hcas, h2, h5, hallow]
  cases hlax : opts.allow_lax_lq_strings <;> simp [hlax, hq1, hq2, htag]

/-- C4 amended witness: the amended rule at the all-rejecting oracles
and the enabled default allow-list. -/
theorem c4_allow_list_checks_split_code_witness :
    is_valid_language_qualified_string oracleNone
      ⟨"'x'@mo-xx".toList, MO_ALLOW_OPTIONS⟩ none =
      MO_ALLOW_OPTIONS.additional_language_codes.contains ['m', 'o'] :=
  c4_allow_list_checks_split_code oracleNone MO_ALLOW_OPTIONS rfl rfl rfl

/-! ## C5: location coordinates -/

theorem splitFirst_eq_some_iff {sep : Char} :
    ∀ {cs l r : List Char}, splitFirst sep cs = some (l, r) ↔
      (cs = l ++ sep :: r ∧ sep ∉ l) := by
  intro cs
  induction cs with
  | nil =>
    intro l r
    constructor
    · intro h
      simp [splitFirst] at h
    · rintro ⟨h, -⟩
      exact absurd h.symm (by simp)
  | cons c rest ih =>
    intro l r
    simp only [splitFirst]
    by_cases hc : c = sep
    · subst hc
      rw [if_pos (by simp)]
      constructor
      · intro h
        simp only [Option.some.injEq, Prod.mk.injEq] at h
        obtain ⟨h1, h2⟩ := h
        subst h1
        subst h2
        exact ⟨rfl, by simp⟩
      · rintro ⟨heq, hnotin⟩
        cases l with
        | nil =>
          simp only [List.nil_append, List.cons.injEq] at heq
          rw [heq.2]
        | cons x l' =>
          simp only [List.cons_append, List.cons.injEq] at heq
          exact absurd (show _ ∈ x :: l' by rw [heq.1]; exact List.mem_cons_self x l')
            hnotin
    · rw [if_neg (by simp [hc])]
      cases hres : splitFirst sep rest with
      | none =>
        constructor
        · intro h
          simp at h
        · rintro ⟨heq, hnotin⟩
          cases l with
          | nil =>
            simp only [List.nil_append, List.cons.injEq] at heq
            exact absurd heq.1 hc
          | cons x l' =>
            simp only [List.cons_append, List.cons.injEq] at heq
            have : splitFirst sep rest = some (l', r) :=
              ih.mpr ⟨heq.2, fun hm => hnotin (List.mem_cons_of_mem x hm)⟩
            rw [this] at hres
            cases hres
      | some lr =>
        obtain ⟨l0, r0⟩ := lr
        have hd := ih.mp hres
        constructor
        · intro h
          simp only [Option.some.injEq, Prod.mk.injEq] at h
          obtain ⟨h1, h2⟩ := h
          subst h1
          subst h2
          refine ⟨by rw [List.cons_append, hd.1], ?_⟩
          intro hm
          rcases List.mem_cons.mp hm with h1 | h1
          · exact hc h1.symm
          · exact hd.2 h1
        · rintro ⟨heq, hnotin⟩
          cases l with
          | nil =>
            simp only [List.nil_append, List.cons.injEq] at heq
            exact absurd heq.1 hc
          | cons x l' =>
            simp only [List.cons_append, List.cons.injEq] at heq
            have h2 : splitFirst sep rest = some (l', r) :=
              ih.mpr ⟨heq.2, fun hm => hnotin (List.mem_cons_of_mem x hm)⟩
            rw [hres] at h2
            simp only [Option.some.injEq, Prod.mk.injEq] at h2
            simp [heq.1, h2.1, h2.2]

theorem parseDecCore_no_slash {cs : List Char} {p : List Char × List Char}
    (h : parseDecCore cs = some p) : '/' ∉ cs := by
  intro hmem
  rw [← List.takeWhile_append_dropWhile (p := Char.isDigit) (l := cs)] at hmem
  simp only [parseDecCore] at h
  by_cases he : (cs.takeWhile Char.isDigit).isEmpty
  · simp [he] at h
  · simp only [he, Bool.false_eq_true, if_false] at h
    rcases List.mem_append.mp hmem with hm | hm
    · have hd := List.mem_takeWhile_imp hm
      simp at hd
    · split at h
      · rename_i heq
        rw [heq] at hm
        cases hm
      · rename_i fs heq
        rw [heq] at hm
        have hall : fs.all Char.isDigit = true := by
          by_cases ha : fs.all Char.isDigit
          · exact ha
          · simp [ha] at h
        rcases List.mem_cons.mp hm with h1 | h1
        · exact absurd h1 (by decide)
        · have := List.all_eq_true.mp hall _ h1
          simp at this
      · simp at h

theorem parseDecForm_no_slash {cs : List Char} {x : Bool × List Char × List Char}
    (h : parseDecForm cs = some x) : '/' ∉ cs := by
  unfold parseDecForm at h
  split at h
  · simp at h
  · rename_i rest
    obtain ⟨p, hp, -⟩ := Option.map_eq_some'.mp h
    intro hm
    rcases List.mem_cons.mp hm with h1 | h1
    · simp at h1
    · exact parseDecCore_no_slash hp h1
  · rename_i rest
    obtain ⟨p, hp, -⟩ := Option.map_eq_some'.mp h
    intro hm
    rcases List.mem_cons.mp hm with h1 | h1
    · simp at h1
    · exact parseDecCore_no_slash hp h1
  · rename_i rest
    have hcond : (!rest.isEmpty && rest.all Char.isDigit) = true := by
      by_cases hc : (!rest.isEmpty && rest.all Char.isDigit) = true
      · exact hc
      · rw [if_neg hc] at h
        cases h
    intro hm
    rcases List.mem_cons.mp hm with h1 | h1
    · simp at h1
    · have hall := (Bool.and_eq_true .. ▸ hcond).2
      have := List.all_eq_true.mp hall _ h1
      simp at this
  · rename_i cs' _ _ _
    obtain ⟨p, hp, -⟩ := Option.map_eq_some'.mp h
    exact parseDecCore_no_slash hp

theorem decInBounds_isSome {b : Nat} {cs : List Char} (h : decInBounds b cs = true) :
    (parseDecForm cs).isSome := by
  unfold decInBounds at h
  split at h
  · rename_i heq
    rw [heq]
    rfl
  · cases h

/-- The form the corrected C5 claim asserts: `@`, a coordinate group, a
`/`, a coordinate group — stated as an existential decomposition — with
both magnitudes inside the bounds. -/
def LocCoordinatesSpec (item : List Char) : Prop :=
  ∃ l r, item = '@' :: (l ++ '/' :: r) ∧
    (parseDecForm l).isSome ∧ (parseDecForm r).isSome ∧
    decInBounds 90 l = true ∧ decInBounds 180 r = true

/-- The decimal grammar exactly as claim C5 words it: an optional sign
followed by either an integer part with optional fraction or a bare
fractional part (so the sign would also be allowed before a bare
fraction). -/
def claimDecBody (cs : List Char) : Option (List Char × List Char) :=
  match parseDecCore cs with
  | some p => some p
  | none =>
    match cs with
    | '.' :: rest =>
      if !rest.isEmpty && rest.all Char.isDigit then some ([], rest) else none
    | _ => none

def claimSignedDecForm : List Char → Option (Bool × List Char × List Char)
  | '-' :: rest => (claimDecBody rest).map (fun p => (true, p.1, p.2))
  | '+' :: rest => (claimDecBody rest).map (fun p => (false, p.1, p.2))
  | cs => (claimDecBody cs).map (fun p => (false, p.1, p.2))

/-- C5 counterexample: by the claim's grammar, `-.5` is a well-formed
signed decimal (sign + bare fraction) whose magnitude 0.5 is within the
latitude bound, so the claim asserts `@-.5/.5` is valid — but the code
rejects it: the source regex allows the sign only on the
integer-part alternative.  The control conjunct shows the unsigned
variants are accepted. -/
theorem c5_signed_bare_fraction_counterexample :
    claimSignedDecForm "-.5".toList = some (true, [], ['5']) ∧
    digitsToNat [] * 10 ^ 1 + digitsToNat ['5'] ≤ 90 * 10 ^ 1 ∧
    is_valid_location_coordinates ⟨"@-.5/.5".toList, DEFAULT_KGTK_VALUE_OPTIONS⟩ none
      = false ∧
    is_valid_location_coordinates ⟨"@.5/.5".toList, DEFAULT_KGTK_VALUE_OPTIONS⟩ none
      = true ∧
    is_valid_location_coordinates ⟨"@-0.5/.5".toList, DEFAULT_KGTK_VALUE_OPTIONS⟩ none
      = true := by
  decide

/-- C5 amended: for a non-list item, `is_valid_location_coordinates`
returns true iff the item decomposes as `@`, a coordinate group, `/`, a
coordinate group, with latitude magnitude at most 90 and longitude
magnitude at most 180 — where a coordinate group allows a sign only
before an integer part (with optional fraction), and a bare fractional
part must be unsigned. -/
theorem c5_location_coordinates_amended (v : KgtkValue) (h1 : isList v = false) :
    (is_valid_location_coordinates v none = true ↔ LocCoordinatesSpec v.value) := by
  have hg : listGuard v none = false := by simp [listGuard, h1]
  rw [is_valid_location_coordinates, if_neg (by simp [hg])]
  show itemIsValidLocationCoordinates v.value = true ↔ _
  cases hv : v.value with
  | nil =>
    simp [itemIsValidLocationCoordinates, LocCoordinatesSpec]
  | cons c rest =>
    by_cases hc : c = '@'
    · subst hc
      rw [show itemIsValidLocationCoordinates ('@' :: rest) =
        (match splitFirst '/' rest with
         | some (l, r) => decInBounds 90 l && decInBounds 180 r
         | none => false) from rfl]
      cases hs : splitFirst '/' rest with
      | none =>
        show false = true ↔ _
        constructor
        · intro h
          cases h
        · rintro ⟨l, r, heq, hl, hr, hbl, hbr⟩
          simp only [List.cons.injEq, true_and] at heq
          obtain ⟨a, ha⟩ := Option.isSome_iff_exists.mp hl
          have : splitFirst '/' rest = some (l, r) :=
            splitFirst_eq_some_iff.mpr ⟨heq, parseDecForm_no_slash ha⟩
          rw [this] at hs
          cases hs
      | some lr =>
        obtain ⟨l, r⟩ := lr
        show (decInBounds 90 l && decInBounds 180 r) = true ↔ _
        have hd := splitFirst_eq_some_iff.mp hs
        constructor
        · intro h
          simp only [Bool.and_eq_true] at h
          exact ⟨l, r, by rw [hd.1], decInBounds_isSome h.1, decInBounds_isSome h.2,
            h.1, h.2⟩
        · rintro ⟨l', r', heq, hl', hr', hbl', hbr'⟩
          simp only [List.cons.injEq, true_and] at heq
          obtain ⟨a, ha⟩ := Option.isSome_iff_exists.mp hl'
          have h2 : splitFirst '/' rest = some (l', r') :=
            splitFirst_eq_some_iff.mpr ⟨heq, parseDecForm_no_slash ha⟩
          rw [hs] at h2
          simp only [Option.some.injEq, Prod.mk.injEq] at h2
          rw [← h2.1] at hbl'
          rw [← h2.2] at hbr'
          simp [hbl', hbr']
    · constructor
      · intro h
        unfold itemIsValidLocationCoordinates at h
        split at h
        · rename_i heq
          simp only [List.cons.injEq] at heq
          exact absurd heq.1 hc
        · cases h
      · rintro ⟨l, r, heq, -⟩
        simp only [List.cons.injEq] at heq
        exact absurd heq.1 hc

/-- C5 amended witness: the equivalence at the concrete valid item of
the spec's example. -/
theorem c5_location_coordinates_amended_witness :
    isList ⟨"@043.26193/010.92708".toList, DEFAULT_KGTK_VALUE_OPTIONS⟩ = false ∧
    (is_valid_location_coordinates
        ⟨"@043.26193/010.92708".toList, DEFAULT_KGTK_VALUE_OPTIONS⟩ none = true ↔
      LocCoordinatesSpec "@043.26193/010.92708".toList) :=
  ⟨by decide, c5_location_coordinates_amended
    ⟨"@043.26193/010.92708".toList, DEFAULT_KGTK_VALUE_OPTIONS⟩ (by decide)⟩

end Kgtk
